import Mathlib

/-!
# Verification of the audio cache subsystem (`src/services/cache.py`)

Shallow embedding of the cache-aside store of the yt-music-player-server
repository. The cache directory is modelled as an ordered list of regular
files (Python's `Path.iterdir()` enumerates in an unspecified order, so the
list order stands for one possible enumeration order); the settings file as
an abstract parse result; per-file `unlinkOk` flags stand for whether an
`unlink` call on that file would succeed (the code swallows unlink
exceptions).  Timestamps are integer seconds; the float comparison
`(now - mtime) / 86400 <= retention` of the source is embedded as the exact
comparison `now - mtime <= retention * 86400`.  OS write errors on
`save_to_cache` (its `except` branch) are not modelled: writes succeed.
-/

/-- Index of the last occurrence of a character in a list, as CPython's
`str.rfind` (used by `pathlib` to compute `stem` and `suffix`). -/
def lastIdxOf (c : Char) : List Char → Option Nat
  | [] => none
  | x :: xs =>
    match lastIdxOf c xs with
    | some i => some (i + 1)
    | none => if x = c then some 0 else none

/-- `pathlib.PurePath.stem`: the file name without its last suffix.
CPython: `name[:i] if 0 < i < len(name) - 1 else name` where `i = name.rfind('.')`. -/
def stem (name : String) : String :=
  let cs := name.toList
  match lastIdxOf '.' cs with
  | some i => if 0 < i ∧ i + 1 < cs.length then String.mk (cs.take i) else name
  | none => name

/-- `pathlib.PurePath.suffix`: the last suffix including the dot, or `""`. -/
def suffix (name : String) : String :=
  let cs := name.toList
  match lastIdxOf '.' cs with
  | some i => if 0 < i ∧ i + 1 < cs.length then String.mk (cs.drop i) else ("")
  | none => ("")

/-- `str.startswith` on code points: `startsWithL pat s` is true iff `pat`
is a prefix of `s`. -/
def startsWithL : List Char → List Char → Bool
  | [], _ => true
  | _ :: _, [] => false
  | p :: ps, s :: ss => if p = s then startsWithL ps ss else false

/-- `s.startswith(pat)` of Python, with the pattern first. -/
def startswith (pat s : String) : Bool :=
  startsWithL pat.toList s.toList

/-- `str.lower()` applied to a file suffix (`ext = file.suffix.lower()`),
embedded as per-character ASCII lowering over the code points (full Unicode
case mapping is irrelevant for the suffixes involved). -/
def str_lower (s : String) : String :=
  String.mk (s.toList.map Char.toLower)

/-- One regular file of the cache directory: its name, content bytes and
modification time (`st_mtime`, integer seconds).  `unlinkOk` models whether
an `unlink()` of this file would succeed (the source catches and swallows
unlink exceptions). -/
structure CacheFile where
  name : String
  content : List Nat
  mtime : Int
  unlinkOk : Bool
deriving Repr, DecidableEq

/-- `st_size` of a file: the number of its content bytes. -/
def CacheFile.size (f : CacheFile) : Nat := f.content.length

/-- The on-disk state of the settings file `_cache_settings.json`: absent,
unreadable/unparsable (`json.load` raises), or parsed as a record whose two
relevant fields may each be present or missing. -/
inductive SettingsFile
  | absent
  | corrupt
  | parsed (retention_days : Option Int) (enabled : Option Bool)
deriving Repr, DecidableEq

/-- An effective cache policy, as the dict returned by `get_cache_settings`
(after backfilling, both fields are present). -/
structure CacheSettings where
  retention_days : Int
  enabled : Bool
deriving Repr, DecidableEq

/-- `DEFAULT_SETTINGS = {"retention_days": 10, "enabled": True}`. -/
def DEFAULT_SETTINGS : CacheSettings := ⟨10, true⟩

/-- `get_cache_settings()`: read the settings file; on missing file or any
read/parse error return a copy of the defaults; otherwise backfill each
missing field from `DEFAULT_SETTINGS` and return the result. -/
def get_cache_settings : SettingsFile → CacheSettings
  | SettingsFile.absent => DEFAULT_SETTINGS
  | SettingsFile.corrupt => DEFAULT_SETTINGS
  | SettingsFile.parsed r e => ⟨r.getD 10, e.getD true⟩

/-- A partial settings record handed to `save_cache_settings` (fields the
caller's dict may or may not contain). -/
structure SettingsInput where
  retention_days : Option Int
  enabled : Option Bool
deriving Repr, DecidableEq

/-- `save_cache_settings(settings)`: normalize
(`retention_days = max(1, min(365, settings.get("retention_days", 10)))`,
`enabled = settings.get("enabled", True)`), write the normalized record to
the settings file, and return it.  Result: (written file, returned dict). -/
def save_cache_settings (s : SettingsInput) : SettingsFile × CacheSettings :=
  let normalized : CacheSettings :=
    ⟨max 1 (min 365 (s.retention_days.getD 10)), s.enabled.getD true⟩
  (SettingsFile.parsed (some normalized.retention_days) (some normalized.enabled), normalized)

/-- Whole relevant filesystem state: the settings file and the cache
directory (`none` when `CACHE_DIR` does not exist). -/
structure CacheState where
  settings : SettingsFile
  dir : Option (List CacheFile)
deriving Repr, DecidableEq

/-- The `content_types` table of `get_cached_file`, with its
`audio/webm` default for unknown extensions. -/
def content_types (ext : String) : String :=
  if ext = ".webm" then ("audio/webm")
  else if ext = ".m4a" then ("audio/mp4")
  else if ext = ".mp3" then ("audio/mpeg")
  else if ext = ".opus" then ("audio/opus")
  else if ext = ".ogg" then ("audio/ogg")
  else ("audio/webm")

/-- The `extensions` table of `save_to_cache`, with its `.webm` default for
unknown content types. -/
def extensions (content_type : String) : String :=
  if content_type = "audio/webm" then (".webm")
  else if content_type = "audio/mp4" then (".m4a")
  else if content_type = "audio/mpeg" then (".mp3")
  else if content_type = "audio/opus" then (".opus")
  else if content_type = "audio/ogg" then (".ogg")
  else (".webm")

/-- The scan loop of `get_cached_file` over the directory listing: find the
first file whose stem starts with `video_id`; if it is fresh
(`age <= retention_days`), `touch()` it (set its mtime to `now`), read it and
return `(bytes, name, content_type)`; if it is expired, try to `unlink` it
(swallowing failure) and continue scanning.  Returns the lookup result and
the directory contents after the scan. -/
def lookup_scan (video_id : String) (retention_days now : Int) :
    List CacheFile → Option (List Nat × String × String) × List CacheFile
  | [] => (none, [])
  | f :: fs =>
    if startswith video_id (stem f.name) then
      if now - f.mtime ≤ retention_days * 86400 then
        (some (f.content, f.name, content_types (str_lower (suffix f.name))),
          { f with mtime := now } :: fs)
      else
        if f.unlinkOk then lookup_scan video_id retention_days now fs
        else
          let (r, fs') := lookup_scan video_id retention_days now fs
          (r, f :: fs')
    else
      let (r, fs') := lookup_scan video_id retention_days now fs
      (r, f :: fs')

/-- `get_cached_file(video_id)`: load the settings; if disabled return
`None` without touching the directory; otherwise ensure the cache directory
exists and scan it.  Returns the result (`None` = Miss) and the new state. -/
def get_cached_file (video_id : String) (now : Int) (st : CacheState) :
    Option (List Nat × String × String) × CacheState :=
  let settings := get_cache_settings st.settings
  if settings.enabled then
    let (r, files') := lookup_scan video_id settings.retention_days now (st.dir.getD [])
    (r, { st with dir := some files' })
  else
    (none, st)

/-- Writing a file into a directory listing: an existing file of the same
name is overwritten in place, otherwise the new file is appended. -/
def write_file : List CacheFile → CacheFile → List CacheFile
  | [], f => [f]
  | g :: gs, f => if g.name = f.name then f :: gs else g :: write_file gs f

/-- `save_to_cache(video_id, audio_data, filename, content_type)`: if the
policy is disabled return `False` without touching the directory; otherwise
ensure the cache directory exists and write `audio_data` to
`"{video_id}{ext}"`, `ext` mapped from `content_type` (the `filename`
argument is unused by the source for storage).  The file's mtime becomes the
write time `now`. -/
def save_to_cache (video_id : String) (audio_data : List Nat)
    (filename content_type : String) (now : Int) (st : CacheState) :
    Bool × CacheState :=
  let settings := get_cache_settings st.settings
  if settings.enabled then
    let cache_filename := video_id ++ extensions content_type
    (true, { st with
      dir := some (write_file (st.dir.getD []) ⟨cache_filename, audio_data, now, true⟩) })
  else
    (false, st)

/-- The counters returned by `cleanup_cache` (`freed_formatted`, a float
string rendering of `freed_bytes`, is omitted). -/
structure CleanupResult where
  deleted : Nat
  kept : Nat
  freed_bytes : Nat
deriving Repr, DecidableEq

/-- The scan loop of `cleanup_cache`: delete each file strictly older than
the retention window (counting it and its size on unlink success, swallowing
unlink failure without counting), count every younger file as kept. -/
def cleanup_scan (retention_days now : Int) :
    List CacheFile → CleanupResult × List CacheFile
  | [] => (⟨0, 0, 0⟩, [])
  | f :: fs =>
    let (r, fs') := cleanup_scan retention_days now fs
    if retention_days * 86400 < now - f.mtime then
      if f.unlinkOk then
        (⟨r.deleted + 1, r.kept, r.freed_bytes + f.size⟩, fs')
      else (r, f :: fs')
    else (⟨r.deleted, r.kept + 1, r.freed_bytes⟩, f :: fs')

/-- `cleanup_cache()`: load the retention setting; if the cache directory
does not exist return zero counters; otherwise sweep it. -/
def cleanup_cache (now : Int) (st : CacheState) : CleanupResult × CacheState :=
  let retention_days := (get_cache_settings st.settings).retention_days
  match st.dir with
  | none => (⟨0, 0, 0⟩, st)
  | some files =>
    let (r, files') := cleanup_scan retention_days now files
    (r, { st with dir := some files' })

/-- The record returned by `get_cache_stats` (formatted size omitted). -/
structure CacheStats where
  file_count : Nat
  total_size : Nat
deriving Repr, DecidableEq

/-- `get_cache_stats()`: zero when the directory does not exist, otherwise
the file count and the sum of file sizes.  Does not modify anything. -/
def get_cache_stats (st : CacheState) : CacheStats :=
  match st.dir with
  | none => ⟨0, 0⟩
  | some files => ⟨files.length, (files.map CacheFile.size).sum⟩

/-- The counters returned by `clear_cache` (formatted size omitted). -/
structure ClearResult where
  deleted : Nat
  freed_bytes : Nat
deriving Repr, DecidableEq

/-- The scan loop of `clear_cache`: try to delete every file, counting the
file and its size on unlink success, swallowing unlink failure. -/
def clear_scan : List CacheFile → ClearResult × List CacheFile
  | [] => (⟨0, 0⟩, [])
  | f :: fs =>
    let (r, fs') := clear_scan fs
    if f.unlinkOk then (⟨r.deleted + 1, r.freed_bytes + f.size⟩, fs')
    else (r, f :: fs')

/-- `clear_cache()`: zero counters when the directory does not exist,
otherwise delete every file best-effort.  Reads no settings: it runs whether
or not the policy is enabled. -/
def clear_cache (st : CacheState) : ClearResult × CacheState :=
  match st.dir with
  | none => (⟨0, 0⟩, st)
  | some files =>
    let (r, files') := clear_scan files
    (r, { st with dir := some files' })

/-! ## Concrete states used by the scenario and counterexample theorems -/

/-- A cache directory holding a single fresh entry whose id is `abc123`,
under default (enabled) settings. -/
def longIdStore : CacheState :=
  ⟨SettingsFile.absent, some [⟨"abc123.mp3", [7, 8, 9], 0, true⟩]⟩

/-- A cache directory holding one fresh entry for id `abcd`, under default
settings. -/
def collideStore : CacheState :=
  ⟨SettingsFile.absent, some [⟨"abcd.mp3", [9, 9, 9], 0, true⟩]⟩

/-- A cache directory where a fresh entry for id `abcd` is enumerated before
an 11-day-old entry for id `abc` (retention default 10 days). -/
def shadowedStore : CacheState :=
  ⟨SettingsFile.absent,
    some [⟨"abcd.mp3", [9], 950400, true⟩, ⟨"abc.mp3", [1, 2, 3], 0, true⟩]⟩

/-- A cache directory holding a single 11-day-old entry whose unlink fails. -/
def stuckStore : CacheState :=
  ⟨SettingsFile.absent, some [⟨"a.mp3", [1, 2], 0, false⟩]⟩

/-- An existing but empty cache directory, under default settings. -/
def emptyStore : CacheState := ⟨SettingsFile.absent, some []⟩

/-- Settings persisted with the enabled flag off, a nonempty directory. -/
def disabledStore : CacheState :=
  ⟨SettingsFile.parsed none (some false), some [⟨"abc123.mp3", [1, 2, 3], 0, true⟩]⟩

/-- A cache directory whose only entry is an 11-day-old entry for id `abc`. -/
def expiredOnlyStore : CacheState :=
  ⟨SettingsFile.absent, some [⟨"abc.mp3", [1, 2, 3], 0, true⟩]⟩

/-- A cache directory holding one fresh and one expired entry, deletes
succeeding. -/
def sweepStore : CacheState :=
  ⟨SettingsFile.absent,
    some [⟨"a.mp3", [1], 950000, true⟩, ⟨"b.mp3", [2, 3], 0, true⟩]⟩

/-- Five files totaling 1000 bytes. -/
def fiveFiles : List CacheFile :=
  [⟨"a.mp3", List.replicate 100 0, 0, true⟩,
   ⟨"b.mp3", List.replicate 200 0, 0, true⟩,
   ⟨"c.mp3", List.replicate 300 0, 0, true⟩,
   ⟨"d.mp3", List.replicate 150 0, 0, true⟩,
   ⟨"e.mp3", List.replicate 250 0, 0, true⟩]

/-- A cache directory holding the five files above, default settings. -/
def fiveFileStore : CacheState := ⟨SettingsFile.absent, some fiveFiles⟩

/-! ## Helper lemmas -/

theorem startsWithL_refl (xs : List Char) : startsWithL xs xs = true := by
  induction xs with
  | nil => rfl
  | cons x xs ih => simp [startsWithL, ih]

theorem startswith_self (s : String) : startswith s s = true :=
  startsWithL_refl s.toList

theorem toList_append (s t : String) : (s ++ t).toList = s.toList ++ t.toList := rfl

theorem mk_toList (s : String) : String.mk s.toList = s := rfl

theorem lastIdxOf_append (c : Char) (xs ys : List Char) (j : Nat)
    (h : lastIdxOf c ys = some j) :
    lastIdxOf c (xs ++ ys) = some (xs.length + j) := by
  induction xs with
  | nil => simpa using h
  | cons x xs ih =>
    have ih' : lastIdxOf c (xs.append ys) = some (xs.length + j) := ih
    simp only [List.cons_append, lastIdxOf, ih', List.length_cons]
    exact congrArg some (by omega)

theorem stem_append (s e : String) (h0 : lastIdxOf '.' e.toList = some 0)
    (h2 : 2 ≤ e.toList.length) (hs : s.toList ≠ []) :
    stem (s ++ e) = s := by
  have hpos : 0 < s.toList.length := List.length_pos.mpr hs
  have hidx : lastIdxOf '.' (s ++ e).toList = some s.toList.length := by
    rw [toList_append]
    simpa using lastIdxOf_append '.' s.toList e.toList 0 h0
  have hlt : s.toList.length + 1 < (s ++ e).toList.length := by
    rw [toList_append, List.length_append]; omega
  simp only [stem, hidx]
  rw [if_pos ⟨hpos, hlt⟩, toList_append, List.take_left, mk_toList]

theorem extensions_shape (ct : String) :
    lastIdxOf '.' (extensions ct).toList = some 0 ∧ 2 ≤ (extensions ct).toList.length := by
  unfold extensions
  split_ifs <;> exact ⟨by decide, by decide⟩

theorem startswith_stored_name (s ct : String) :
    startswith s (stem (s ++ extensions ct)) = true := by
  by_cases hs : s.toList = []
  · unfold startswith
    rw [hs]
    rfl
  · rw [stem_append s _ (extensions_shape ct).1 (extensions_shape ct).2 hs]
    exact startswith_self s

theorem lookup_scan_write_file (id : String) (ret now : Int) (t : CacheFile)
    (files : List CacheFile)
    (hmatch : startswith id (stem t.name) = true)
    (hfresh : now - t.mtime ≤ ret * 86400)
    (hothers : ∀ f ∈ files, startswith id (stem f.name) = true → f.name = t.name) :
    lookup_scan id ret now (write_file files t) =
      (some (t.content, t.name, content_types (str_lower (suffix t.name))),
        write_file files { t with mtime := now }) := by
  induction files with
  | nil => simp [write_file, lookup_scan, hmatch, hfresh]
  | cons g gs ih =>
    by_cases hg : g.name = t.name
    · simp [write_file, hg, lookup_scan, hmatch, hfresh]
    · have hsg : ¬(startswith id (stem g.name) = true) := fun h =>
        hg (hothers g (List.mem_cons_self g gs) h)
      have ih' := ih (fun f hf h => hothers f (List.mem_cons_of_mem g hf) h)
      simp [write_file, hg, lookup_scan, hsg, ih']

theorem lookup_scan_all_expired (id : String) (ret now : Int)
    (files : List CacheFile)
    (hall : ∀ f ∈ files, startswith id (stem f.name) = true →
      ret * 86400 < now - f.mtime ∧ f.unlinkOk = true) :
    lookup_scan id ret now files =
      (none, files.filter (fun f => !(startswith id (stem f.name)))) := by
  induction files with
  | nil => rfl
  | cons g gs ih =>
    have ih' := ih (fun f hf h => hall f (List.mem_cons_of_mem g hf) h)
    by_cases hsg : startswith id (stem g.name) = true
    · obtain ⟨hexp, hok⟩ := hall g (List.mem_cons_self g gs) hsg
      have hnf : ¬(now - g.mtime ≤ ret * 86400) := by omega
      simp [lookup_scan, hsg, hnf, hok, ih', List.filter_cons]
    · simp [lookup_scan, hsg, ih', List.filter_cons]

theorem write_file_write_file (gs : List CacheFile) (f g : CacheFile)
    (h : f.name = g.name) :
    write_file (write_file gs f) g = write_file gs g := by
  induction gs with
  | nil => simp [write_file, h]
  | cons x xs ih =>
    by_cases hx : x.name = f.name
    · have hx' : x.name = g.name := hx.trans h
      simp [write_file, hx, hx', h]
    · have hx' : ¬(x.name = g.name) := fun hc => hx (hc.trans h.symm)
      simp [write_file, hx, hx', ih]

theorem filter_write_file (gs : List CacheFile) (f : CacheFile)
    (hnd : (gs.map CacheFile.name).Nodup) :
    (write_file gs f).filter (fun x => x.name = f.name) = [f] := by
  induction gs with
  | nil => simp [write_file]
  | cons x xs ih =>
    obtain ⟨hnotin, hnd'⟩ := List.nodup_cons.mp hnd
    by_cases hx : x.name = f.name
    · have hnone : ∀ y ∈ xs, ¬(y.name = f.name) := by
        intro y hy hyf
        exact hnotin (hx ▸ hyf ▸ List.mem_map_of_mem CacheFile.name hy)
      have hfe : xs.filter (fun y => y.name = f.name) = [] :=
        List.filter_eq_nil_iff.mpr (fun y hy => by simp [hnone y hy])
      simp [write_file, hx, List.filter_cons, hfe]
    · simp [write_file, hx, List.filter_cons, ih hnd']

theorem cleanup_scan_spec (ret now : Int) (files : List CacheFile) :
    cleanup_scan ret now files =
      (⟨(files.filter (fun f => decide (ret * 86400 < now - f.mtime) && f.unlinkOk)).length,
        (files.filter (fun f => !decide (ret * 86400 < now - f.mtime))).length,
        ((files.filter (fun f => decide (ret * 86400 < now - f.mtime) && f.unlinkOk)).map
          CacheFile.size).sum⟩,
       files.filter (fun f => !(decide (ret * 86400 < now - f.mtime) && f.unlinkOk))) := by
  induction files with
  | nil => rfl
  | cons g gs ih =>
    by_cases hexp : ret * 86400 < now - g.mtime
    · by_cases hok : g.unlinkOk = true
      · simp [cleanup_scan, ih, hexp, hok, List.filter_cons, CleanupResult.mk.injEq]
        omega
      · simp [cleanup_scan, ih, hexp, hok, List.filter_cons]
    · simp [cleanup_scan, ih, hexp, List.filter_cons]

theorem clear_scan_spec (files : List CacheFile) :
    clear_scan files =
      (⟨(files.filter (fun f => f.unlinkOk)).length,
        ((files.filter (fun f => f.unlinkOk)).map CacheFile.size).sum⟩,
       files.filter (fun f => !f.unlinkOk)) := by
  induction files with
  | nil => rfl
  | cons g gs ih =>
    by_cases hok : g.unlinkOk = true
    · simp [clear_scan, ih, hok, List.filter_cons, ClearResult.mk.injEq]
      omega
    · simp [clear_scan, ih, hok, List.filter_cons]

theorem length_filter_add_length_filter_not (p : CacheFile → Bool)
    (l : List CacheFile) :
    (l.filter p).length + (l.filter (fun f => !p f)).length = l.length := by
  induction l with
  | nil => rfl
  | cons x xs ih =>
    by_cases hx : p x = true <;> simp [List.filter_cons, hx] <;> omega

theorem clamp_mem_range (x : Int) :
    1 ≤ max 1 (min 365 x) ∧ max 1 (min 365 x) ≤ 365 :=
  ⟨le_max_left _ _, max_le (by norm_num) (min_le_left _ _)⟩

/-! ## Claim theorems -/

/-- C4: Disabled bypass — when the loaded policy has enabled=false, lookup
returns Miss for every assetId and store returns false for every input,
regardless of the on-disk entries, and neither operation touches the state:
both return the input state unchanged. -/
theorem disabled_bypass (st : CacheState) (id : String) (payload : List Nat)
    (fn ct : String) (now : Int)
    (hdis : (get_cache_settings st.settings).enabled = false) :
    get_cached_file id now st = (none, st) ∧
    save_to_cache id payload fn ct now st = (false, st) := by
  constructor
  · simp [get_cached_file, hdis]
  · simp [save_to_cache, hdis]

/-- Witness for C4: a persisted policy with enabled=false over a nonempty
directory; lookup misses, store refuses, state untouched. -/
theorem disabled_bypass_instance :
    get_cached_file ("abc123") 0 disabledStore = (none, disabledStore) ∧
    save_to_cache ("abc123") [4, 5] ("f.mp3") ("audio/mpeg") 0 disabledStore =
      (false, disabledStore) :=
  disabled_bypass disabledStore ("abc123") [4, 5] ("f.mp3") ("audio/mpeg") 0 (by decide)

/-- C6: Settings clamp on save — save normalizes retentionDays by clamping
to [1, 365] (0 persists as 1, 1000 as 365), takes enabled with default true,
persists the normalized record (loading the written file yields exactly the
returned policy), and returns the normalized policy. -/
theorem save_settings_clamp (s : SettingsInput) :
    (1 ≤ (save_cache_settings s).2.retention_days ∧
      (save_cache_settings s).2.retention_days ≤ 365) ∧
    (save_cache_settings s).2.retention_days =
      (if s.retention_days.getD 10 < 1 then 1
        else if 365 < s.retention_days.getD 10 then 365
        else s.retention_days.getD 10) ∧
    (save_cache_settings s).2.enabled = s.enabled.getD true ∧
    get_cache_settings (save_cache_settings s).1 = (save_cache_settings s).2 ∧
    (s.retention_days = some 0 → (save_cache_settings s).2.retention_days = 1) ∧
    (s.retention_days = some 1000 → (save_cache_settings s).2.retention_days = 365) := by
  have hx : (save_cache_settings s).2.retention_days =
      max 1 (min 365 (s.retention_days.getD 10)) := rfl
  refine ⟨hx ▸ clamp_mem_range _, ?_, rfl, rfl, ?_, ?_⟩
  · rw [hx, max_def, min_def]
    split_ifs <;> omega
  · intro h
    rw [hx, h]
    decide
  · intro h
    rw [hx, h]
    decide

/-- Witness for C6: saving retentionDays=0 persists and returns 1, and the
written file loads back as exactly the returned policy. -/
theorem save_settings_clamp_instance :
    (save_cache_settings ⟨some 0, none⟩).2.retention_days = 1 ∧
    (save_cache_settings ⟨some 0, none⟩).2.enabled = true ∧
    get_cache_settings (save_cache_settings ⟨some 0, none⟩).1 =
      (save_cache_settings ⟨some 0, none⟩).2 := by
  have h := save_settings_clamp ⟨some 0, none⟩
  exact ⟨h.2.2.2.2.1 rfl, h.2.2.1, h.2.2.2.1⟩

/-- C7: Settings load fails soft — load never propagates an error: a
missing file or any read/parse failure yields the default policy
(retentionDays 10, enabled true), and when the file parses, each missing
field is backfilled from the defaults while present fields are kept. -/
theorem load_settings_fails_soft :
    get_cache_settings SettingsFile.absent = DEFAULT_SETTINGS ∧
    get_cache_settings SettingsFile.corrupt = DEFAULT_SETTINGS ∧
    DEFAULT_SETTINGS = ⟨10, true⟩ ∧
    (∀ e, (get_cache_settings (SettingsFile.parsed none e)).retention_days =
      DEFAULT_SETTINGS.retention_days) ∧
    (∀ r, (get_cache_settings (SettingsFile.parsed r none)).enabled =
      DEFAULT_SETTINGS.enabled) ∧
    (∀ r e, (get_cache_settings (SettingsFile.parsed (some r) e)).retention_days = r) ∧
    (∀ r e, (get_cache_settings (SettingsFile.parsed r (some e))).enabled = e) :=
  ⟨rfl, rfl, rfl, fun _ => rfl, fun r => by cases r <;> rfl,
    fun _ e => by cases e <;> rfl, fun r _ => by cases r <;> rfl⟩

/-- C9 counterexample: load does not clamp — a parsed settings file holding
retention_days=400 is returned by load as-is, outside [1, 365], so the
policy range invariant fails for load over arbitrary file states. -/
theorem load_does_not_clamp :
    (get_cache_settings (SettingsFile.parsed (some 400) none)).retention_days = 400 ∧
    ¬(1 ≤ (get_cache_settings (SettingsFile.parsed (some 400) none)).retention_days ∧
      (get_cache_settings (SettingsFile.parsed (some 400) none)).retention_days ≤ 365) :=
  ⟨rfl, by decide⟩

/-- C9 amended: save always returns retentionDays in [1, 365]; load returns
a value in [1, 365] whenever the file is absent, corrupt, lacks the field,
was written by save, or stores a value already in range — but load itself
performs no clamping. -/
theorem policy_range_from_save :
    (∀ s : SettingsInput, 1 ≤ (save_cache_settings s).2.retention_days ∧
      (save_cache_settings s).2.retention_days ≤ 365) ∧
    (∀ s : SettingsInput,
      1 ≤ (get_cache_settings (save_cache_settings s).1).retention_days ∧
      (get_cache_settings (save_cache_settings s).1).retention_days ≤ 365) ∧
    (1 ≤ (get_cache_settings SettingsFile.absent).retention_days ∧
      (get_cache_settings SettingsFile.absent).retention_days ≤ 365) ∧
    (1 ≤ (get_cache_settings SettingsFile.corrupt).retention_days ∧
      (get_cache_settings SettingsFile.corrupt).retention_days ≤ 365) ∧
    (∀ e, 1 ≤ (get_cache_settings (SettingsFile.parsed none e)).retention_days ∧
      (get_cache_settings (SettingsFile.parsed none e)).retention_days ≤ 365) ∧
    (∀ (r : Int) e, 1 ≤ r → r ≤ 365 →
      1 ≤ (get_cache_settings (SettingsFile.parsed (some r) e)).retention_days ∧
      (get_cache_settings (SettingsFile.parsed (some r) e)).retention_days ≤ 365) := by
  refine ⟨fun s => clamp_mem_range _, fun s => clamp_mem_range _,
    by decide, by decide, fun e => by norm_num [get_cache_settings], ?_⟩
  intro r e h1 h2
  exact ⟨h1, h2⟩

/-- Witness for C9: saving an out-of-range input yields an in-range policy,
and loading a file holding an in-range value stays in range. -/
theorem policy_range_from_save_instance :
    (1 ≤ (save_cache_settings ⟨some 400, some true⟩).2.retention_days ∧
      (save_cache_settings ⟨some 400, some true⟩).2.retention_days ≤ 365) ∧
    (1 ≤ (get_cache_settings (SettingsFile.parsed (some 42) none)).retention_days ∧
      (get_cache_settings (SettingsFile.parsed (some 42) none)).retention_days ≤ 365) := by
  have h := policy_range_from_save
  exact ⟨h.1 ⟨some 400, some true⟩, h.2.2.2.2.2 42 none (by decide) (by decide)⟩

/-- C10: lookup matches by id prefix, not by exact key — with an enabled
policy, a store containing only an entry for the longer id abc123 (and no
entry whose stem is abc) answers a lookup of abc with a Hit carrying the
abc123 entry's payload instead of Miss. -/
theorem lookup_matches_by_id_prefix :
    (get_cache_settings longIdStore.settings).enabled = true ∧
    ((longIdStore.dir.getD []).all (fun f => !(stem f.name = ("abc")))) = true ∧
    startswith ("abc") ("abc123") = true ∧
    ¬(("abc" : String) = ("abc123")) ∧
    (get_cached_file ("abc") 0 longIdStore).1 =
      some ([7, 8, 9], "abc123.mp3", "audio/mpeg") := by
  refine ⟨rfl, by decide, by decide, by decide, by decide⟩

/-- C1 counterexample: with a pre-existing fresh entry for id abcd, storing
id abc and immediately looking it up returns a Hit carrying the abcd entry's
payload — not the stored payload — so the round-trip claim fails as stated
for arbitrary stores (iterdir may enumerate the colliding entry first). -/
theorem lookup_after_store_returns_other_entry :
    (save_to_cache ("abc") [1, 2, 3] ("f.mp3") ("audio/mpeg") 0 collideStore).1 = true ∧
    ((save_to_cache ("abc") [1, 2, 3] ("f.mp3") ("audio/mpeg") 0
      collideStore).2.dir.getD []).contains ⟨"abc.mp3", [1, 2, 3], 0, true⟩ = true ∧
    (get_cached_file ("abc") 0
      (save_to_cache ("abc") [1, 2, 3] ("f.mp3") ("audio/mpeg") 0 collideStore).2).1 =
      some ([9, 9, 9], "abcd.mp3", "audio/mpeg") ∧
    ¬((get_cached_file ("abc") 0
      (save_to_cache ("abc") [1, 2, 3] ("f.mp3") ("audio/mpeg") 0 collideStore).2).1 =
      some ([1, 2, 3], "abc.mp3", "audio/mpeg")) := by
  refine ⟨by decide, by decide, by decide, by decide⟩

/-- C1 amended: round-trip with freshness refresh, provided the stored entry
is the only file whose stem starts with the assetId — under an enabled
policy, store succeeds and writes "{assetId}{ext}", and a lookup whose time
is within the retention window of the store time hits with exactly the
stored payload and the content type determined by the stored file's suffix,
and rewrites the entry's mtime to the lookup time. -/
theorem round_trip_refresh_unique_match (st : CacheState) (assetId : String)
    (payload : List Nat) (fn ct : String) (t0 t1 : Int)
    (hen : (get_cache_settings st.settings).enabled = true)
    (hfresh : t1 - t0 ≤ (get_cache_settings st.settings).retention_days * 86400)
    (hu : ∀ f ∈ st.dir.getD [], startswith assetId (stem f.name) = true →
      f.name = assetId ++ extensions ct) :
    (save_to_cache assetId payload fn ct t0 st).1 = true ∧
    (save_to_cache assetId payload fn ct t0 st).2.dir =
      some (write_file (st.dir.getD []) ⟨assetId ++ extensions ct, payload, t0, true⟩) ∧
    (get_cached_file assetId t1 (save_to_cache assetId payload fn ct t0 st).2).1 =
      some (payload, assetId ++ extensions ct,
        content_types (str_lower (suffix (assetId ++ extensions ct)))) ∧
    (get_cached_file assetId t1 (save_to_cache assetId payload fn ct t0 st).2).2.dir =
      some (write_file (st.dir.getD []) ⟨assetId ++ extensions ct, payload, t1, true⟩) := by
  have hm : startswith assetId
      (stem ((⟨assetId ++ extensions ct, payload, t0, true⟩ : CacheFile).name)) = true :=
    startswith_stored_name assetId ct
  have hscan := lookup_scan_write_file assetId
    (get_cache_settings st.settings).retention_days t1
    ⟨assetId ++ extensions ct, payload, t0, true⟩ (st.dir.getD []) hm hfresh hu
  refine ⟨?_, ?_, ?_, ?_⟩ <;>
    simp [save_to_cache, get_cached_file, hen, hscan]

/-- Witness for C1: storing 3 bytes under id abc123 with content-type
audio/mpeg into an empty store yields file abc123.mp3 holding those bytes,
and a lookup 5 seconds later (retention 10 days) hits with the stored
payload, mp3 content type, and mtime refreshed to the lookup time. -/
theorem round_trip_refresh_instance :
    (save_to_cache ("abc123") [1, 2, 3] ("f.mp3") ("audio/mpeg") 0 emptyStore).1 = true ∧
    (save_to_cache ("abc123") [1, 2, 3] ("f.mp3") ("audio/mpeg") 0 emptyStore).2.dir =
      some [⟨"abc123.mp3", [1, 2, 3], 0, true⟩] ∧
    (get_cached_file ("abc123") 5
      (save_to_cache ("abc123") [1, 2, 3] ("f.mp3") ("audio/mpeg") 0 emptyStore).2).1 =
      some ([1, 2, 3], "abc123.mp3", "audio/mpeg") ∧
    (get_cached_file ("abc123") 5
      (save_to_cache ("abc123") [1, 2, 3] ("f.mp3") ("audio/mpeg") 0 emptyStore).2).2.dir =
      some [⟨"abc123.mp3", [1, 2, 3], 5, true⟩] := by
  have h := round_trip_refresh_unique_match emptyStore ("abc123") [1, 2, 3]
    ("f.mp3") ("audio/mpeg") 0 5 (by decide) (by decide)
    (fun f hf _ => absurd hf (List.not_mem_nil f))
  exact ⟨h.1, h.2.1.trans (by decide), h.2.2.1.trans (by decide),
    h.2.2.2.trans (by decide)⟩

/-- C2 counterexample: an 11-day-old entry for id abc (retention 10) is
neither missed nor deleted when a fresh entry for the longer id abcd is
enumerated first: the lookup of abc hits the abcd entry and the expired
abc entry stays in the store and in stats. -/
theorem expired_entry_shadowed_by_fresh_collision :
    (get_cache_settings shadowedStore.settings).enabled = true ∧
    (get_cache_settings shadowedStore.settings).retention_days * 86400 <
      (950400 : Int) - 0 ∧
    (get_cached_file ("abc") 950400 shadowedStore).1 =
      some ([9], "abcd.mp3", "audio/mpeg") ∧
    ¬((get_cached_file ("abc") 950400 shadowedStore).1 = none) ∧
    ((get_cached_file ("abc") 950400 shadowedStore).2.dir.getD []).contains
      ⟨"abc.mp3", [1, 2, 3], 0, true⟩ = true ∧
    (get_cache_stats (get_cached_file ("abc") 950400 shadowedStore).2).file_count = 2 := by
  refine ⟨rfl, by decide, by decide, by decide, by decide, by decide⟩

/-- C2 amended: expiry on lookup, provided every file whose stem starts with
the assetId is strictly older than the retention window and its delete
succeeds (in particular when the expired entry is the only prefix match) —
the lookup returns Miss and removes every such entry, so the entry is
subsequently absent from the directory and from stats. -/
theorem expiry_on_lookup_unique_match (st : CacheState) (assetId : String)
    (now : Int)
    (hen : (get_cache_settings st.settings).enabled = true)
    (hall : ∀ f ∈ st.dir.getD [], startswith assetId (stem f.name) = true →
      (get_cache_settings st.settings).retention_days * 86400 < now - f.mtime ∧
        f.unlinkOk = true) :
    (get_cached_file assetId now st).1 = none ∧
    (get_cached_file assetId now st).2.dir =
      some ((st.dir.getD []).filter (fun f => !(startswith assetId (stem f.name)))) ∧
    (∀ f, startswith assetId (stem f.name) = true →
      f ∉ ((get_cached_file assetId now st).2.dir.getD [])) := by
  have hscan := lookup_scan_all_expired assetId
    (get_cache_settings st.settings).retention_days now (st.dir.getD []) hall
  refine ⟨?_, ?_, ?_⟩
  · simp [get_cached_file, hen, hscan]
  · simp [get_cached_file, hen, hscan]
  · intro f hf hmem
    simp only [get_cached_file, hen, hscan, if_true] at hmem
    have hmem' : f ∈ (st.dir.getD []).filter
        (fun g => !(startswith assetId (stem g.name))) := hmem
    have hp := (List.mem_filter.mp hmem').2
    rw [hf] at hp
    simp at hp

/-- Witness for C2: the spec scenario — sole entry abc.mp3 aged 11 days,
retention 10: lookup of abc misses, the file is deleted, and stats report
an empty store. -/
theorem expiry_on_lookup_instance :
    (get_cached_file ("abc") 950400 expiredOnlyStore).1 = none ∧
    (get_cached_file ("abc") 950400 expiredOnlyStore).2.dir = some [] ∧
    get_cache_stats (get_cached_file ("abc") 950400 expiredOnlyStore).2 = ⟨0, 0⟩ := by
  have h := expiry_on_lookup_unique_match expiredOnlyStore ("abc") 950400
    (by decide)
    (by
      intro f hf hm
      have hf' : f = ⟨"abc.mp3", [1, 2, 3], 0, true⟩ := by
        simpa [expiredOnlyStore] using hf
      subst hf'
      exact ⟨by decide, rfl⟩)
  exact ⟨h.1, h.2.1.trans (by decide), by decide⟩

/-- C3 counterexample: storing id abc first as audio/mpeg and then as
audio/webm leaves two files (abc.mp3 and abc.webm) whose stem is abc — two
stored entries for the same assetId, refuting exactly-one-entry as stated. -/
theorem double_store_distinct_suffixes_two_entries :
    (save_to_cache ("abc") [1] ("f") ("audio/mpeg") 0 emptyStore).1 = true ∧
    (save_to_cache ("abc") [2] ("g") ("audio/webm") 1
      (save_to_cache ("abc") [1] ("f") ("audio/mpeg") 0 emptyStore).2).1 = true ∧
    (((save_to_cache ("abc") [2] ("g") ("audio/webm") 1
      (save_to_cache ("abc") [1] ("f") ("audio/mpeg") 0 emptyStore).2).2.dir.getD
      []).filter (fun f => stem f.name = ("abc"))).length = 2 := by
  refine ⟨by decide, by decide, by decide⟩

/-- C3 amended: idempotent overwrite holds per file name — when the two
content types map to the same suffix (in particular when they are equal),
two stores for the same assetId over a directory with distinct file names
leave exactly one file named "{assetId}{ext}", holding the later payload;
with different suffixes two entries for the id coexist (see the
counterexample). -/
theorem overwrite_same_suffix_single_entry (st : CacheState) (assetId : String)
    (p1 p2 : List Nat) (fn1 fn2 ct1 ct2 : String) (t1 t2 : Int)
    (hen : (get_cache_settings st.settings).enabled = true)
    (hext : extensions ct1 = extensions ct2)
    (hnd : ((st.dir.getD []).map CacheFile.name).Nodup) :
    (save_to_cache assetId p1 fn1 ct1 t1 st).1 = true ∧
    (save_to_cache assetId p2 fn2 ct2 t2
      (save_to_cache assetId p1 fn1 ct1 t1 st).2).1 = true ∧
    (save_to_cache assetId p2 fn2 ct2 t2
      (save_to_cache assetId p1 fn1 ct1 t1 st).2).2.dir =
      some (write_file (st.dir.getD []) ⟨assetId ++ extensions ct2, p2, t2, true⟩) ∧
    ((save_to_cache assetId p2 fn2 ct2 t2
      (save_to_cache assetId p1 fn1 ct1 t1 st).2).2.dir.getD []).filter
      (fun f => f.name = assetId ++ extensions ct2) =
      [⟨assetId ++ extensions ct2, p2, t2, true⟩] := by
  have hww := write_file_write_file (st.dir.getD [])
    ⟨assetId ++ extensions ct1, p1, t1, true⟩
    ⟨assetId ++ extensions ct2, p2, t2, true⟩
    (show assetId ++ extensions ct1 = assetId ++ extensions ct2 by rw [hext])
  have hfw := filter_write_file (st.dir.getD [])
    ⟨assetId ++ extensions ct2, p2, t2, true⟩ hnd
  refine ⟨?_, ?_, ?_, ?_⟩ <;>
    simp [save_to_cache, hen, hww, hfw]

/-- Witness for C3: two stores of id abc with the same content type over an
empty store leave exactly the single file abc.mp3 holding the later
payload. -/
theorem overwrite_same_suffix_instance :
    (save_to_cache ("abc") [1] ("f") ("audio/mpeg") 0 emptyStore).1 = true ∧
    (save_to_cache ("abc") [2, 2] ("g") ("audio/mpeg") 1
      (save_to_cache ("abc") [1] ("f") ("audio/mpeg") 0 emptyStore).2).1 = true ∧
    (save_to_cache ("abc") [2, 2] ("g") ("audio/mpeg") 1
      (save_to_cache ("abc") [1] ("f") ("audio/mpeg") 0 emptyStore).2).2.dir =
      some [⟨"abc.mp3", [2, 2], 1, true⟩] := by
  have h := overwrite_same_suffix_single_entry emptyStore ("abc") [1] [2, 2]
    ("f") ("g") ("audio/mpeg") ("audio/mpeg") 0 1 (by decide) rfl
    (by exact List.nodup_nil)
  exact ⟨h.1, h.2.1, h.2.2.1.trans (by decide)⟩

/-- C5 counterexample: a store whose only entry is expired but whose unlink
fails gives cleanup counters deleted=0, kept=0 while the pre-cleanup entry
count is 1 — deleted + kept does not equal the pre-cleanup count when a
delete fails. -/
theorem cleanup_counters_drop_failed_delete :
    (get_cache_settings stuckStore.settings).retention_days * 86400 <
      (950400 : Int) - 0 ∧
    (cleanup_cache 950400 stuckStore).1.deleted = 0 ∧
    (cleanup_cache 950400 stuckStore).1.kept = 0 ∧
    (cleanup_cache 950400 stuckStore).1.freed_bytes = 0 ∧
    (get_cache_stats stuckStore).file_count = 1 ∧
    ¬((cleanup_cache 950400 stuckStore).1.deleted +
      (cleanup_cache 950400 stuckStore).1.kept =
      (get_cache_stats stuckStore).file_count) := by
  refine ⟨by decide, by decide, by decide, by decide, by decide, by decide⟩

/-- C5 amended: sweeper conservation holds when every expired file's delete
succeeds — then deleted + kept equals the pre-cleanup entry count and
freed_bytes is the total size of the expired files; in general the scan
never aborts, deleted/freed count exactly the successfully deleted files,
kept counts the fresh files, and files whose delete failed remain. -/
theorem cleanup_counter_conservation (st : CacheState) (files : List CacheFile)
    (now : Int) (hdir : st.dir = some files) :
    (cleanup_cache now st).1.deleted = (files.filter (fun f =>
      decide ((get_cache_settings st.settings).retention_days * 86400 <
        now - f.mtime) && f.unlinkOk)).length ∧
    (cleanup_cache now st).1.kept = (files.filter (fun f =>
      !decide ((get_cache_settings st.settings).retention_days * 86400 <
        now - f.mtime))).length ∧
    (cleanup_cache now st).1.freed_bytes = ((files.filter (fun f =>
      decide ((get_cache_settings st.settings).retention_days * 86400 <
        now - f.mtime) && f.unlinkOk)).map CacheFile.size).sum ∧
    (cleanup_cache now st).2.dir = some (files.filter (fun f =>
      !(decide ((get_cache_settings st.settings).retention_days * 86400 <
        now - f.mtime) && f.unlinkOk))) ∧
    ((∀ f ∈ files, (get_cache_settings st.settings).retention_days * 86400 <
        now - f.mtime → f.unlinkOk = true) →
      (cleanup_cache now st).1.deleted + (cleanup_cache now st).1.kept =
        files.length ∧
      (cleanup_cache now st).1.freed_bytes = ((files.filter (fun f =>
        decide ((get_cache_settings st.settings).retention_days * 86400 <
          now - f.mtime))).map CacheFile.size).sum) := by
  have hspec := cleanup_scan_spec (get_cache_settings st.settings).retention_days
    now files
  refine ⟨?_, ?_, ?_, ?_, ?_⟩
  · simp [cleanup_cache, hdir, hspec]
  · simp [cleanup_cache, hdir, hspec]
  · simp [cleanup_cache, hdir, hspec]
  · simp [cleanup_cache, hdir, hspec]
  · intro hall
    have hcong : files.filter (fun f =>
        decide ((get_cache_settings st.settings).retention_days * 86400 <
          now - f.mtime) && f.unlinkOk) =
        files.filter (fun f =>
        decide ((get_cache_settings st.settings).retention_days * 86400 <
          now - f.mtime)) := by
      apply List.filter_congr
      intro f hf
      by_cases hexp : (get_cache_settings st.settings).retention_days * 86400 <
          now - f.mtime
      · simp [hexp, hall f hf hexp]
      · simp [hexp]
    have hlen := length_filter_add_length_filter_not (fun f =>
      decide ((get_cache_settings st.settings).retention_days * 86400 <
        now - f.mtime)) files
    constructor
    · simp only [cleanup_cache, hdir, hspec]
      rw [hcong]
      exact hlen
    · simp only [cleanup_cache, hdir, hspec]
      rw [hcong]

/-- Witness for C5: a store with one fresh file (1 byte) and one expired
file (2 bytes), deletes succeeding: cleanup reports deleted=1, kept=1,
freed_bytes=2, deleted + kept equals the pre-cleanup count 2, and the fresh
file survives untouched. -/
theorem cleanup_counter_conservation_instance :
    (cleanup_cache 950400 sweepStore).1.deleted = 1 ∧
    (cleanup_cache 950400 sweepStore).1.kept = 1 ∧
    (cleanup_cache 950400 sweepStore).1.freed_bytes = 2 ∧
    (cleanup_cache 950400 sweepStore).1.deleted +
      (cleanup_cache 950400 sweepStore).1.kept =
      (get_cache_stats sweepStore).file_count ∧
    (cleanup_cache 950400 sweepStore).2.dir =
      some [⟨"a.mp3", [1], 950000, true⟩] := by
  have h := cleanup_counter_conservation sweepStore
    [⟨"a.mp3", [1], 950000, true⟩, ⟨"b.mp3", [2, 3], 0, true⟩] 950400 rfl
  exact ⟨h.1.trans (by decide), h.2.1.trans (by decide),
    h.2.2.1.trans (by decide), by decide, h.2.2.2.1.trans (by decide)⟩

/-- C8: clearAll postcondition — clear_cache runs without consulting the
policy, counts exactly the files whose delete succeeds together with their
total size, leaves exactly the files whose delete failed, and when every
delete succeeds it reports the prior file count and total size and a
subsequent stats() reports an empty store. -/
theorem clear_all_postcondition (st : CacheState) (files : List CacheFile)
    (hdir : st.dir = some files) :
    (clear_cache st).1.deleted = (files.filter (fun f => f.unlinkOk)).length ∧
    (clear_cache st).1.freed_bytes =
      ((files.filter (fun f => f.unlinkOk)).map CacheFile.size).sum ∧
    (clear_cache st).2.dir = some (files.filter (fun f => !f.unlinkOk)) ∧
    ((∀ f ∈ files, f.unlinkOk = true) →
      (clear_cache st).1.deleted = (get_cache_stats st).file_count ∧
      (clear_cache st).1.freed_bytes = (get_cache_stats st).total_size ∧
      get_cache_stats (clear_cache st).2 = ⟨0, 0⟩) := by
  have hspec := clear_scan_spec files
  refine ⟨?_, ?_, ?_, ?_⟩
  · simp [clear_cache, hdir, hspec]
  · simp [clear_cache, hdir, hspec]
  · simp [clear_cache, hdir, hspec]
  · intro hall
    have hfe : files.filter (fun f => f.unlinkOk) = files := by
      apply List.filter_eq_self.mpr
      intro f hf
      exact hall f hf
    have hfn : files.filter (fun f => !f.unlinkOk) = [] :=
      List.filter_eq_nil_iff.mpr (fun f hf => by simp [hall f hf])
    refine ⟨?_, ?_, ?_⟩ <;>
      simp [clear_cache, get_cache_stats, hdir, hspec, hfe, hfn]

set_option maxRecDepth 4000 in
/-- Witness for C8: the spec scenario — clearing a store of 5 files
totaling 1000 bytes returns deleted=5, freed_bytes=1000, and stats
afterwards report file_count=0, total_size=0. -/
theorem clear_all_instance :
    (clear_cache fiveFileStore).1.deleted = 5 ∧
    (clear_cache fiveFileStore).1.freed_bytes = 1000 ∧
    get_cache_stats fiveFileStore = ⟨5, 1000⟩ ∧
    get_cache_stats (clear_cache fiveFileStore).2 = ⟨0, 0⟩ := by
  have h := clear_all_postcondition fiveFileStore fiveFiles rfl
  have h4 := h.2.2.2 (by decide)
  exact ⟨h4.1.trans (by decide), h4.2.1.trans (by decide), by decide, h4.2.2⟩
